import Mathlib

/-!
Shallow embedding of the accessmod-webapp data-aggregation core and its
claim-relevant UI logic, translated from:

* `src/services/ifrcService.ts` — the `IFRCService` class: its private
  key/value cache with per-entry expiry, and `loadAllData`, which fetches raw
  upstream "local unit" records, filters and deduplicates them into
  `IFRCFacility` values and a per-country index of `IFRCCountryInfo` values.
* `src/services/boundaryService.ts` — `BoundaryService.getCountryBoundary`
  with its three-tier name matching and the fixed table of common country
  name variations.
* `src/sections/analysis/accessibility.tsx` — `handleRunAnalysis` and the
  construction of the `AnalysisResults` summary record.

Modelling conventions:

* JavaScript numbers are modelled by `ℚ` (coordinates, coverage
  percentages) or `ℕ` (millisecond clock values from `Date.now()`).
  Binary floating-point artifacts are outside the model; `Number.toFixed(6)`
  is modelled by exact decimal rounding (round half away from zero).
* A JavaScript value of type `string | undefined | null` is `Option String`;
  the `a || b` idiom on strings is `jsOr`, which also treats the empty
  string as falsy, exactly as JavaScript does.
* `Map` objects are modelled as association lists (preserving insertion
  order, as JavaScript `Map` does) or as functions `String → Option _`
  where only point lookups matter.
* `async`/`await` I/O is modelled by passing the outcome of the awaited
  call as an explicit `Except`/oracle argument; a thrown exception is an
  explicit error value.
-/

/-- JavaScript `a || b` for `a : string | undefined | null`: the fallback is
taken when `a` is missing or is the empty string (both falsy). -/
def jsOr : Option String → String → String
  | some s, d => if s = "" then d else s
  | none, d => d

/-- JavaScript truthiness filter for an optional string: `none` for a missing
or empty string, `some s` otherwise. -/
def jsOpt : Option String → Option String
  | some s => if s = "" then none else some s
  | none => none

/-- `leadMatch pat l` is true when `pat` is an initial segment of `l`. -/
def leadMatch : List Char → List Char → Bool
  | [], _ => true
  | _ :: _, [] => false
  | a :: as, b :: bs => a = b && leadMatch as bs

/-- Helper for `strContains`: does `sub` occur inside `l`? -/
def containsAux (sub : List Char) : List Char → Bool
  | [] => leadMatch sub []
  | c :: rest => leadMatch sub (c :: rest) || containsAux sub rest

/-- JavaScript `s.includes(sub)`: substring containment (the empty string is
contained in everything, as in JavaScript). -/
def strContains (s sub : String) : Bool := containsAux sub.data s.data

/-- JavaScript `s.toLowerCase()`, modelled characterwise. -/
def strLower (s : String) : String := ⟨s.data.map Char.toLower⟩

/-- JavaScript `s.trim()`: strip leading and trailing whitespace. -/
def strTrim (s : String) : String :=
  ⟨((s.data.dropWhile Char.isWhitespace).reverse.dropWhile Char.isWhitespace).reverse⟩

/-- The integer value of `q` rounded to 6 decimal places (scaled by `10^6`),
rounding half away from zero: the exact-decimal semantics of JavaScript
`q.toFixed(6)`. Implemented on the numerator/denominator directly:
`(2 * |num| * 10^6 + den) / (2 * den)` is `⌊|q| * 10^6 + 1/2⌋`. -/
def fix6 (q : ℚ) : ℤ :=
  let a : ℕ := q.num.natAbs * 1000000
  let r : ℕ := (2 * a + q.den) / (2 * q.den)
  if q < 0 then -(r : ℤ) else (r : ℤ)

/-- Left-pad the decimal rendering of `n` with zeros to 6 digits. -/
def pad6 (n : ℕ) : String :=
  let s := toString n
  ⟨List.replicate (6 - s.length) '0' ++ s.data⟩

/-- JavaScript `q.toFixed(6)`: fixed-point decimal string with 6 fractional
digits (for the exact decimal value of `q`). -/
def toFixed6 (q : ℚ) : String :=
  let n := (fix6 q).natAbs
  (if q < 0 then "-" else "") ++ toString (n / 1000000) ++ "." ++ pad6 (n % 1000000)

/-! ## Data model of `ifrcService.ts` -/

/-- The `country_details` object nested in a raw upstream record. `iso` and
`iso3` may be absent (or empty, which the code treats the same way). -/
structure CountryDetails where
  name : String
  iso : Option String
  iso3 : Option String
deriving DecidableEq

/-- The `type_details` object nested in a raw upstream record. -/
structure TypeDetails where
  code : Option ℤ
  name : Option String
deriving DecidableEq

/-- A raw upstream record (`unit`) as consumed by `loadAllData`:
* `id` — `String(unit.id)`;
* `coordinates` — `unit.location_geojson?.coordinates`;
* `health_facility_type_name` —
  `unit.health_details?.health_facility_type_details?.name`. -/
structure RawUnit where
  id : String
  country_details : Option CountryDetails
  coordinates : Option (List ℚ)
  type_details : Option TypeDetails
  local_branch_name : Option String
  english_branch_name : Option String
  address_en : Option String
  address_loc : Option String
  health_facility_type_name : Option String
deriving DecidableEq

/-- The `IFRCFacility` interface. `type_code` is optional at runtime because
`unit.type_details?.code` may be absent even though the TypeScript interface
declares `number`. -/
structure IFRCFacility where
  id : String
  name : String
  latitude : ℚ
  longitude : ℚ
  type_code : Option ℤ
  type_name : String
  health_facility_type : Option String
  address : String
  country_name : String
  country_iso : String
  country_iso3 : String
deriving DecidableEq

/-- The `IFRCCountryInfo` interface (the optional `region` field is never set
by `loadAllData` and is omitted). -/
structure IFRCCountryInfo where
  name : String
  iso : String
  iso3 : String
  facility_count : ℕ
deriving DecidableEq

/-- `FACILITY_TYPES[code]?.name`: the fixed facility-type table. -/
def facilityTypeName (code : ℤ) : Option String :=
  if code = 1 then some "Administrative"
  else if code = 2 then some "Health Care"
  else if code = 3 then some "Emergency Response"
  else if code = 4 then some "Humanitarian Assistance Centres"
  else if code = 5 then some "Training and Education"
  else if code = 6 then some "Other"
  else none

/-- The accumulator of the `units.forEach` loop in `loadAllData`:
the facility list under construction, the two duplicate-suppression sets
(`seenIds`, `seenLocations`, as membership lists), and the `countriesMap`
(insertion-ordered association list keyed by `iso3 || name`). -/
structure LoadState where
  facilities : List IFRCFacility
  seenIds : List String
  seenLocations : List String
  countries : List (String × IFRCCountryInfo)
deriving DecidableEq

/-- The facility record literal built for an accepted unit. -/
def mkFacility (u : RawUnit) (cd : CountryDetails) (lon lat : ℚ) : IFRCFacility :=
  let typeCode := u.type_details.bind TypeDetails.code
  { id := u.id
    name := jsOr u.english_branch_name (jsOr u.local_branch_name "Unknown")
    latitude := lat
    longitude := lon
    type_code := typeCode
    type_name := jsOr (typeCode.bind facilityTypeName)
      (jsOr (u.type_details.bind TypeDetails.name) "Unknown")
    health_facility_type :=
      if typeCode = some 2 then jsOpt u.health_facility_type_name else none
    address := jsOr u.address_en (jsOr u.address_loc "Unknown")
    country_name := cd.name
    country_iso := jsOr cd.iso ""
    country_iso3 := jsOr cd.iso3 "" }

/-- The `CountrySummary` created on first sighting of a country key. -/
def mkCountryInfo (cd : CountryDetails) : IFRCCountryInfo :=
  { name := cd.name, iso := jsOr cd.iso "", iso3 := jsOr cd.iso3 "", facility_count := 1 }

/-- The `countriesMap` update: create a new entry with count 1 on first
sighting of `key`, otherwise increment the existing entry (JavaScript `Map`
semantics: insertion order preserved, value mutated in place). -/
def bumpCountry (cs : List (String × IFRCCountryInfo)) (key : String)
    (cd : CountryDetails) : List (String × IFRCCountryInfo) :=
  if cs.any (fun p => p.1 = key) then
    cs.map (fun p =>
      if p.1 = key then (p.1, { p.2 with facility_count := p.2.facility_count + 1 }) else p)
  else cs ++ [(key, mkCountryInfo cd)]

/-- The dedup key string
`lat.toFixed(6) + "," + lon.toFixed(6) + "," + country + "," + name`. -/
def locationKey (lat lon : ℚ) (country nm : String) : String :=
  toFixed6 lat ++ "," ++ toFixed6 lon ++ "," ++ country ++ "," ++ nm

/-- The body of the `units.forEach` callback after the country-details and
coordinate-shape guards have passed: bounds check, id dedup, location-key
dedup, then record construction and country accumulation. -/
def processValidUnit (acc : LoadState) (u : RawUnit) (cd : CountryDetails)
    (lon lat : ℚ) : LoadState :=
  if lat < -90 ∨ 90 < lat ∨ lon < -180 ∨ 180 < lon then acc
  else if u.id ∈ acc.seenIds then acc
  else if locationKey lat lon cd.name
      (jsOr u.local_branch_name (jsOr u.english_branch_name "Unknown")) ∈
      acc.seenLocations then acc
  else
    { facilities := acc.facilities ++ [mkFacility u cd lon lat]
      seenIds := acc.seenIds ++ [u.id]
      seenLocations := acc.seenLocations ++
        [locationKey lat lon cd.name
          (jsOr u.local_branch_name (jsOr u.english_branch_name "Unknown"))]
      countries := bumpCountry acc.countries (jsOr cd.iso3 cd.name) cd }

/-- One iteration of the `units.forEach` loop in `loadAllData`: reject a unit
with no `country_details`, no coordinates, or a coordinate array whose length
is not 2 (the array is `[lon, lat]`), then run the guarded body. -/
def processUnit (acc : LoadState) (u : RawUnit) : LoadState :=
  match u.country_details with
  | none => acc
  | some cd =>
    match u.coordinates with
    | some [lon, lat] => processValidUnit acc u cd lon lat
    | _ => acc

/-- Total order used to model the final `sort((a, b) => a.name.localeCompare(b.name))`.
`localeCompare` is locale dependent; the claims under verification are
insensitive to the particular order, only to the sort being a permutation,
so code-point lexicographic order stands in for the locale order. -/
def charListLe : List Char → List Char → Bool
  | [], _ => true
  | _ :: _, [] => false
  | a :: as, b :: bs => a.toNat < b.toNat || (a = b && charListLe as bs)

/-- The record-processing core of `loadAllData` (lines 104–169 of
`ifrcService.ts`): fold the per-unit filter over the upstream batch, then
sort the country index by name. Returns the retained facilities
(`this.allFacilities`) and the country index (`this.allCountries`). -/
def buildAll (units : List RawUnit) : List IFRCFacility × List IFRCCountryInfo :=
  let st := units.foldl processUnit ⟨[], [], [], []⟩
  (st.facilities,
    List.insertionSort (fun a b => charListLe a.name.data b.name.data = true)
      (st.countries.map Prod.snd))

/-! ### Instrumented variant

`loadAllData` computes each retained facility's dedup key from the
`local_branch_name`-preferred name, which is not stored on the facility
record (the stored `name` prefers `english_branch_name`). To state dedup-key
properties of the retained set, `processUnitK` is `processUnit` with the
facility list additionally carrying each facility's dedup key; the
simulation lemma `projK_processUnitK` proves it computes exactly the same
facilities as `processUnit`. -/

/-- `LoadState` with each retained facility paired with its dedup key. -/
structure LoadStateK where
  facilitiesK : List (IFRCFacility × String)
  seenIds : List String
  seenLocations : List String
  countries : List (String × IFRCCountryInfo)
deriving DecidableEq

/-- Forget the dedup keys. -/
def projK (st : LoadStateK) : LoadState :=
  ⟨st.facilitiesK.map Prod.fst, st.seenIds, st.seenLocations, st.countries⟩

/-- `processValidUnit`, instrumented with the dedup key. -/
def processValidUnitK (acc : LoadStateK) (u : RawUnit) (cd : CountryDetails)
    (lon lat : ℚ) : LoadStateK :=
  if lat < -90 ∨ 90 < lat ∨ lon < -180 ∨ 180 < lon then acc
  else if u.id ∈ acc.seenIds then acc
  else if locationKey lat lon cd.name
      (jsOr u.local_branch_name (jsOr u.english_branch_name "Unknown")) ∈
      acc.seenLocations then acc
  else
    { facilitiesK := acc.facilitiesK ++
        [(mkFacility u cd lon lat,
          locationKey lat lon cd.name
            (jsOr u.local_branch_name (jsOr u.english_branch_name "Unknown")))]
      seenIds := acc.seenIds ++ [u.id]
      seenLocations := acc.seenLocations ++
        [locationKey lat lon cd.name
          (jsOr u.local_branch_name (jsOr u.english_branch_name "Unknown"))]
      countries := bumpCountry acc.countries (jsOr cd.iso3 cd.name) cd }

/-- `processUnit`, instrumented with the dedup key. -/
def processUnitK (acc : LoadStateK) (u : RawUnit) : LoadStateK :=
  match u.country_details with
  | none => acc
  | some cd =>
    match u.coordinates with
    | some [lon, lat] => processValidUnitK acc u cd lon lat
    | _ => acc

/-- The retained facilities, each paired with its dedup key. -/
def buildAllK (units : List RawUnit) : List (IFRCFacility × String) :=
  (units.foldl processUnitK ⟨[], [], [], []⟩).facilitiesK

/-! ### Claim-statement helpers -/

/-- The country grouping key of a facility: `iso3`, falling back to
`country_name` (mirrors `countryDetails.iso3 || countryDetails.name`, since
the facility stores `country_iso3 = iso3 || ""`). -/
def facilityKey (f : IFRCFacility) : String :=
  if f.country_iso3 = "" then f.country_name else f.country_iso3

/-- The country grouping key of a country summary. -/
def countryInfoKey (ci : IFRCCountryInfo) : String :=
  if ci.iso3 = "" then ci.name else ci.iso3

/-- The `(rounded-lat, rounded-lon, country_name, name)` tuple of a
*stored* facility record, with its stored (english-preferred) `name`. -/
def storedTuple (f : IFRCFacility) : ℤ × ℤ × String × String :=
  (fix6 f.latitude, fix6 f.longitude, f.country_name, f.name)

/-! ## The `IFRCService` cache and stateful `loadAllData` -/

/-- `CACHE_DURATION = 10 * 60 * 1000` milliseconds. -/
def CACHE_DURATION : ℕ := 10 * 60 * 1000

/-- The two `Map`s backing the cache: `this.cache` (values) and
`this.cacheExpiry` (absolute expiry instants in milliseconds). -/
structure CacheState (α : Type) where
  cache : String → Option α
  cacheExpiry : String → Option ℕ

/-- `setCache(key, data)`: store the value and stamp
`Date.now() + CACHE_DURATION` (the call instant is the `now` argument). -/
def setCache {α : Type} (st : CacheState α) (key : String) (data : α)
    (now : ℕ) : CacheState α :=
  { cache := Function.update st.cache key (some data)
    cacheExpiry := Function.update st.cacheExpiry key (some (now + CACHE_DURATION)) }

/-- JavaScript `x || null` applied to a looked-up optional value: a missing
value stays absent, and a stored value that is falsy (per the value type's
falsiness `falsy`, e.g. `0`, `""`, `false`, while objects are never falsy)
also reads as `null`. -/
def jsValOr {α : Type} (falsy : α → Bool) : Option α → Option α
  | some v => if falsy v then none else some v
  | none => none

/-- `getCache(key)` at instant `now`: if a (truthy, i.e. nonzero) expiry
stamp exists and `now > expiry`, delete the entry from both maps and report
a miss; otherwise `return this.cache.get(key) || null` — an absent value
reads as a miss, and so does a stored falsy value (`jsValOr` with the value
type's falsiness `falsy`). Returns the result together with the
possibly-evicted cache state. -/
def getCache {α : Type} (falsy : α → Bool) (st : CacheState α) (key : String)
    (now : ℕ) : Option α × CacheState α :=
  match st.cacheExpiry key with
  | some e =>
    if e ≠ 0 ∧ e < now then
      (none, { cache := Function.update st.cache key none
               cacheExpiry := Function.update st.cacheExpiry key none })
    else (jsValOr falsy (st.cache key), st)
  | none => (jsValOr falsy (st.cache key), st)

/-- The payload cached under the combined key `"all_ifrc_data"`:
`{ facilities, countries }`. -/
def CachePayload : Type := List IFRCFacility × List IFRCCountryInfo

/-- The mutable fields of the `IFRCService` instance touched by
`loadAllData`. -/
structure ServiceState where
  cacheState : CacheState CachePayload
  allFacilities : List IFRCFacility
  allCountries : List IFRCCountryInfo
  dataLoaded : Bool

/-- `loadAllData()` at instant `now`. The awaited upstream call
(`apiClient.get("/v2/public-local-units/")`, including the parse of
`response.data.results`) is passed in as `fetched`: `.ok units` for a
successful transport+parse, `.error msg` for a thrown error with message
`msg`. Returns the error surfaced to the caller (if any) and the post-call
service state:
* if `dataLoaded`, return immediately;
* on a fresh cached combined entry, adopt it;
* otherwise process the batch with `buildAll`, publish the arrays, set
  `dataLoaded` and cache the combined payload — or, when the awaited call
  threw, re-throw `"Failed to load data: " + message` with no field of the
  service mutated beyond the lazy eviction done by `getCache`.
The cached payload is the `{ facilities, countries }` object, which is never
falsy in JavaScript, so the value-type falsiness passed to `getCache` is
constantly false. -/
def loadAllData (st : ServiceState) (now : ℕ)
    (fetched : Except String (List RawUnit)) : Option String × ServiceState :=
  if st.dataLoaded then (none, st)
  else
    match (getCache (fun _ => false) st.cacheState "all_ifrc_data" now).1 with
    | some payload =>
      (none, { st with
                 cacheState := (getCache (fun _ => false) st.cacheState "all_ifrc_data" now).2,
                 allFacilities := payload.1,
                 allCountries := payload.2, dataLoaded := true })
    | none =>
      match fetched with
      | .error msg =>
        (some ("Failed to load data: " ++ msg),
          { st with
              cacheState := (getCache (fun _ => false) st.cacheState "all_ifrc_data" now).2 })
      | .ok units =>
        (none, { cacheState :=
                   setCache (getCache (fun _ => false) st.cacheState "all_ifrc_data" now).2
                     "all_ifrc_data" (buildAll units) now
                 allFacilities := (buildAll units).1
                 allCountries := (buildAll units).2
                 dataLoaded := true })

/-! ## Data model of `boundaryService.ts` -/

/-- One GeoJSON feature of the boundary dataset, over an opaque geometry
type `G`; `name`, `iso2`, `iso3` model `properties.name`,
`properties["ISO3166-1-Alpha-2"]` and `properties["ISO3166-1-Alpha-3"]`. -/
structure GeoFeature (G : Type) where
  name : String
  iso2 : Option String
  iso3 : Option String
  geometry : G
deriving DecidableEq

/-- The `CountryBoundary` interface; `properties` keeps the source feature
record. -/
structure CountryBoundary (G : Type) where
  name : String
  iso2 : String
  iso3 : String
  geometry : G
  properties : GeoFeature G
deriving DecidableEq

/-- The static state of `BoundaryService`: the loaded feature collection
(`boundaryData`) and the resolved-name cache (a `Map` keyed by the
lowercased, trimmed query). -/
structure BoundaryState (G : Type) where
  boundaryData : Option (List (GeoFeature G))
  cache : List (String × CountryBoundary G)
deriving DecidableEq

/-- Association-list lookup modelling `Map.get` (with `Map.has` agreeing). -/
def alookup {β : Type} (l : List (String × β)) (k : String) : Option β :=
  (l.find? (fun p => p.1 = k)).map Prod.snd

/-- Association-list write modelling `Map.set`: replace an existing binding
or append a new one. -/
def aset {β : Type} (l : List (String × β)) (k : String) (v : β) :
    List (String × β) :=
  if l.any (fun p => p.1 = k) then l.map (fun p => if p.1 = k then (k, v) else p)
  else l ++ [(k, v)]

/-- The fixed `variations` table of `matchCommonVariations`: canonical name
paired with its documented alternative names. -/
def variations : List (String × List String) :=
  [("united states of america", ["usa", "united states", "us", "america"]),
   ("united kingdom", ["uk", "great britain", "britain", "england"]),
   ("russian federation", ["russia"]),
   ("china", ["peoples republic of china", "prc"]),
   ("south korea", ["republic of korea", "korea south"]),
   ("north korea", ["democratic peoples republic of korea", "korea north"]),
   ("democratic republic of the congo", ["congo drc", "dr congo", "zaire"]),
   ("republic of the congo", ["congo", "congo republic"]),
   ("czech republic", ["czechia"]),
   ("myanmar", ["burma"]),
   ("east timor", ["timor-leste"]),
   ("macedonia", ["north macedonia", "fyrom"])]

/-- One pass of the `for (const [canonical, alts] of ...)` loop body:
`some r` models an early `return r`, `none` models falling through to the
next table entry. The three guarded returns check, in order: the canonical
name against the dataset name, the canonical name against the search term,
and the alternative names against the dataset name. -/
def matchEntry (geoName searchName : String) (e : String × List String) :
    Option Bool :=
  if strContains e.1 geoName || strContains geoName e.1 then
    some (e.2.any (fun alt => strContains alt searchName || strContains searchName alt))
  else if strContains e.1 searchName || strContains searchName e.1 then
    some (e.2.any (fun alt => strContains alt geoName || strContains geoName alt))
  else if e.2.any (fun alt => strContains alt geoName || strContains geoName alt) then
    some (e.2.any (fun alt => strContains alt searchName || strContains searchName alt))
  else none

/-- `matchCommonVariations(geoName, searchName)`: first early return of the
loop over the variation table, `false` when the loop completes. -/
def matchCommonVariations (geoName searchName : String) : Bool :=
  (variations.findSome? (matchEntry geoName searchName)).getD false

/-- The tier-3 predicate of `getCountryBoundary`: substring containment in
either direction, or a common-variation match (on lowercased names). -/
def tier3Match (featureName countryName : String) : Bool :=
  let nm := strLower featureName
  let searchName := strLower countryName
  strContains nm searchName || strContains searchName nm ||
    matchCommonVariations nm searchName

/-- The boundary record literal built from a matched feature. -/
def mkBoundary {G : Type} (f : GeoFeature G) : CountryBoundary G :=
  { name := f.name, iso2 := jsOr f.iso2 "", iso3 := jsOr f.iso3 "",
    geometry := f.geometry, properties := f }

/-- `loadBoundaryData()`: return the already-loaded collection, or adopt the
result of the awaited `fetch` (passed as `fetched`); a fetch failure
propagates as an error and loads nothing. -/
def loadBoundaryData {G : Type} (st : BoundaryState G)
    (fetched : Except String (List (GeoFeature G))) :
    Except String (List (GeoFeature G) × BoundaryState G) :=
  match st.boundaryData with
  | some d => .ok (d, st)
  | none =>
    match fetched with
    | .ok d => .ok (d, { st with boundaryData := some d })
    | .error e => .error e

/-- The three-tier feature search of `getCountryBoundary`, first match wins:
`f1` exact name, `f2` case-insensitive name, `f3` substring containment or
common-variation match. -/
def findBoundaryFeature {G : Type} (data : List (GeoFeature G))
    (countryName : String) : Option (GeoFeature G) :=
  match data.find? (fun f => f.name = countryName) with
  | some f => some f
  | none =>
    match data.find? (fun f => strLower f.name = strLower countryName) with
    | some f => some f
    | none => data.find? (fun f => tier3Match f.name countryName)

/-- `getCountryBoundary(countryName)`: consult the resolved-name cache
(case-insensitive, trimmed key); on miss, load the dataset and try the three
matching tiers in order (`findBoundaryFeature`); cache and return a found
boundary; return `null` on a resolution miss, and also on any thrown error
(the surrounding `try`/`catch` turns a failed dataset fetch into a `null`
result with no state change). -/
def getCountryBoundary {G : Type} (st : BoundaryState G) (countryName : String)
    (fetched : Except String (List (GeoFeature G))) :
    Option (CountryBoundary G) × BoundaryState G :=
  match alookup st.cache (strTrim (strLower countryName)) with
  | some b => (some b, st)
  | none =>
    match loadBoundaryData st fetched with
    | .error _ => (none, st)
    | .ok (data, st1) =>
      match findBoundaryFeature data countryName with
      | some feature =>
        (some (mkBoundary feature),
          { st1 with cache :=
              (aset st1.cache (strTrim (strLower countryName)) (mkBoundary feature)) })
      | none => (none, st1)

/-! ## Data model of `accessibility.tsx` (`handleRunAnalysis`) -/

/-- The fields of `AnalysisResponse.data` read by `handleRunAnalysis` and
`buildAnalysisResults`. The coverage percentages are optional at runtime
(the `||` fallbacks in the code guard against their absence). -/
structure BackendData where
  asset_id : String
  coverage_30min : Option ℚ
  coverage_60min : Option ℚ
deriving DecidableEq

/-- The `AnalysisResponse` envelope of `backendApiService.analyzeFromAsset`. -/
structure AnalysisResponse where
  success : Bool
  data : BackendData
deriving DecidableEq

/-- JavaScript `a || b` for an optional number `a`: the fallback is taken
when `a` is missing or zero (both falsy; `NaN`, also falsy, has no `ℚ`
counterpart and is outside the model). -/
def jsNumOr : Option ℚ → ℚ → ℚ
  | some x, d => if x = 0 then d else x
  | none, d => d

/-- The fields of the `AnalysisResults` summary record built on a successful
run (the `timestamp` `Date` object is represented by the millisecond clock
value `now` used for `analysisId`). -/
structure AnalysisResults where
  accessibility : String
  coverage : ℚ
  mapData : String
  totalFacilities : ℕ
  averageAccessTime : ℕ
  analysisId : String
  isBackendAnalysis : Bool
deriving DecidableEq

/-- The `analysisResults` literal of `handleRunAnalysis` (lines 277–286 of
`accessibility.tsx`): in particular
`coverage = backendData.coverage_60min || backendData.coverage_30min || 0`. -/
def buildAnalysisResults (d : BackendData) (country : IFRCCountryInfo)
    (hospitalsCount : ℕ) (now : ℕ) : AnalysisResults :=
  { accessibility := "analysis_complete"
    coverage := jsNumOr d.coverage_60min (jsNumOr d.coverage_30min 0)
    mapData := d.asset_id
    totalFacilities := hospitalsCount
    averageAccessTime := 60
    analysisId := "backend_" ++ country.iso3 ++ "_" ++ toString now
    isBackendAnalysis := true }

/-- The component state read by `handleRunAnalysis`, with the awaited
external analysis call (`backendApiService.analyzeFromAsset`) passed as the
oracle `analyze` from the requested `country_name`. `backendConnected` is
`boolean | null` (`none` while the probe is still running). -/
structure RunEnv where
  selectedCountry : Option IFRCCountryInfo
  backendConnected : Option Bool
  hospitalsCount : ℕ
  analyze : String → AnalysisResponse
  now : ℕ

/-- JavaScript truthiness of `boolean | null`. -/
def jsTruthyOptBool : Option Bool → Bool
  | some b => b
  | none => false

/-- String coercion of the `data` object in the thrown message
`"Backend analysis failed: " + (backendResult.data || "Unknown error")`
(the object is truthy, so JavaScript stringifies it). -/
def jsStringOfData (_ : BackendData) : String := "[object Object]"

/-- The outcome of one `handleRunAnalysis` invocation:
* `ran` — false for the `!isDataReady || !selectedCountry` early return
  (which touches no state);
* `analyzeCalled` — whether `backendApiService.analyzeFromAsset` was
  invoked during the run;
* `thrownMessage` — the message of the error caught by the `catch` block,
  if one was thrown;
* `results`, `backendAnalysisResults`, `mapError`, `isLoading`, `progress`
  — the final values of the corresponding state hooks. -/
structure RunOutcome where
  ran : Bool
  analyzeCalled : Bool
  results : Option AnalysisResults
  backendAnalysisResults : Option AnalysisResponse
  mapError : Option String
  thrownMessage : Option String
  isLoading : Bool
  progress : ℕ

/-- `handleRunAnalysis` (lines 235–304 of `accessibility.tsx`). The six
fixed progress stages are decorative (timers and `setProgress` only); the
one real unit of work — the `analyzeFromAsset` call issued at the
penultimate stage — and the terminal state updates are modelled:
* no selected country: early return;
* `!backendConnected` (false or still `null`): throw
  `"Backend Earth Engine is not available. ..."` before any stage runs;
* otherwise call the backend; on `success` build the results record and the
  overlay inputs, else throw `"Backend analysis failed: ..."`;
* the `catch` sets `mapError` to `"Analysis failed. Please try again."`; the
  `finally` clears `isLoading` and `progress`. -/
def handleRunAnalysis (env : RunEnv) : RunOutcome :=
  match env.selectedCountry with
  | none =>
    { ran := false, analyzeCalled := false, results := none,
      backendAnalysisResults := none, mapError := none, thrownMessage := none,
      isLoading := false, progress := 0 }
  | some country =>
    if jsTruthyOptBool env.backendConnected = false then
      { ran := true, analyzeCalled := false, results := none,
        backendAnalysisResults := none,
        mapError := some "Analysis failed. Please try again.",
        thrownMessage := some "Backend Earth Engine is not available. Please ensure the backend server is running and connected to Google Earth Engine.",
        isLoading := false, progress := 0 }
    else
      let backendResult := env.analyze country.name
      if backendResult.success then
        { ran := true, analyzeCalled := true,
          results := some (buildAnalysisResults backendResult.data country
            env.hospitalsCount env.now),
          backendAnalysisResults := some backendResult,
          mapError := none, thrownMessage := none,
          isLoading := false, progress := 0 }
      else
        { ran := true, analyzeCalled := true, results := none,
          backendAnalysisResults := some backendResult,
          mapError := some "Analysis failed. Please try again.",
          thrownMessage := some ("Backend analysis failed: " ++
            jsStringOfData backendResult.data),
          isLoading := false, progress := 0 }

/-! ## Lemmas about the per-unit processing step -/

/-- Either a unit is rejected (state unchanged) or it is admitted: the
facility, its id, and its dedup key are appended, and the country index is
bumped. An admitted unit has in-bounds coordinates, an unseen id and an
unseen dedup key. -/
theorem processValidUnit_spec (acc : LoadState) (u : RawUnit) (cd : CountryDetails)
    (lon lat : ℚ) :
    processValidUnit acc u cd lon lat = acc ∨
    (-90 ≤ lat ∧ lat ≤ 90 ∧ -180 ≤ lon ∧ lon ≤ 180 ∧
      u.id ∉ acc.seenIds ∧
      ∃ lk, lk ∉ acc.seenLocations ∧
        processValidUnit acc u cd lon lat =
          { facilities := acc.facilities ++ [mkFacility u cd lon lat]
            seenIds := acc.seenIds ++ [u.id]
            seenLocations := acc.seenLocations ++ [lk]
            countries := bumpCountry acc.countries (jsOr cd.iso3 cd.name) cd }) := by
  unfold processValidUnit
  split
  · exact Or.inl rfl
  · rename_i hb
    push_neg at hb
    split
    · exact Or.inl rfl
    · rename_i hid
      split
      · exact Or.inl rfl
      · rename_i hlk
        exact Or.inr ⟨hb.1, hb.2.1, hb.2.2.1, hb.2.2.2, hid, _, hlk, rfl⟩

/-- Case analysis for one loop iteration: rejected, or admitted with the
state extended as in `processValidUnit_spec`. -/
theorem processUnit_spec (acc : LoadState) (u : RawUnit) :
    processUnit acc u = acc ∨
    ∃ cd lon lat,
      -90 ≤ lat ∧ lat ≤ 90 ∧ -180 ≤ lon ∧ lon ≤ 180 ∧
      u.id ∉ acc.seenIds ∧
      ∃ lk, lk ∉ acc.seenLocations ∧
        processUnit acc u =
          { facilities := acc.facilities ++ [mkFacility u cd lon lat]
            seenIds := acc.seenIds ++ [u.id]
            seenLocations := acc.seenLocations ++ [lk]
            countries := bumpCountry acc.countries (jsOr cd.iso3 cd.name) cd } := by
  unfold processUnit
  cases hcd : u.country_details with
  | none => exact Or.inl rfl
  | some cd =>
    cases hco : u.coordinates with
    | none => exact Or.inl rfl
    | some l =>
      rcases l with _ | ⟨a, _ | ⟨b, _ | ⟨c, t⟩⟩⟩
      · exact Or.inl rfl
      · exact Or.inl rfl
      · rcases processValidUnit_spec acc u cd a b with h | ⟨h1, h2, h3, h4, h5, lk, h6, h7⟩
        · exact Or.inl h
        · exact Or.inr ⟨cd, a, b, h1, h2, h3, h4, h5, lk, h6, h7⟩
      · exact Or.inl rfl

/-- Invariant preservation through the whole fold. -/
theorem foldl_processUnit_inv (P : LoadState → Prop)
    (hstep : ∀ acc u, P acc → P (processUnit acc u)) :
    ∀ (l : List RawUnit) (acc : LoadState), P acc → P (l.foldl processUnit acc) := by
  intro l
  induction l with
  | nil => intro acc h; exact h
  | cons u t ih => intro acc h; exact ih _ (hstep acc u h)

/-! ## C1: retained facilities have pairwise-distinct upstream ids -/

/-- Auxiliary invariant for C1: retained ids are distinct and all recorded
in `seenIds`. -/
def IdInv (st : LoadState) : Prop :=
  (st.facilities.map IFRCFacility.id).Nodup ∧
  ∀ f ∈ st.facilities, f.id ∈ st.seenIds

theorem idInv_step (acc : LoadState) (u : RawUnit) (h : IdInv acc) :
    IdInv (processUnit acc u) := by
  rcases processUnit_spec acc u with heq | ⟨cd, lon, lat, _, _, _, _, hid, lk, _, heq⟩
  · rw [heq]; exact h
  · rw [heq]
    constructor
    · rw [List.map_append]
      refine List.Nodup.append h.1 (by simp) ?_
      intro x hx hx2
      simp only [List.map_cons, List.map_nil, List.mem_singleton] at hx2
      subst hx2
      rcases List.mem_map.mp hx with ⟨f, hf, hfid⟩
      have hfe : f.id = u.id := hfid
      exact hid (hfe ▸ h.2 f hf)
    · intro f hf
      rcases List.mem_append.mp hf with hf | hf
      · exact List.mem_append_left _ (h.2 f hf)
      · simp only [List.mem_singleton] at hf
        subst hf
        simp [mkFacility]

/-- C1: for every input batch, no two retained facilities share the same
upstream id; equivalently, for every id at most one facility with that id is
retained by `loadAllData` (its record-processing core `buildAll`). -/
theorem loadAll_unique_ids (units : List RawUnit) :
    (((buildAll units).1).map IFRCFacility.id).Nodup ∧
    ∀ i : String, ((buildAll units).1).countP (fun f => f.id == i) ≤ 1 := by
  have hinv : IdInv (units.foldl processUnit ⟨[], [], [], []⟩) :=
    foldl_processUnit_inv IdInv idInv_step units _ (by constructor <;> simp)
  have hnodup : (((buildAll units).1).map IFRCFacility.id).Nodup := hinv.1
  refine ⟨hnodup, fun i => ?_⟩
  have hcount := (List.nodup_iff_count_le_one.mp hnodup) i
  calc ((buildAll units).1).countP (fun f => f.id == i)
      = (((buildAll units).1).map IFRCFacility.id).countP (fun s => s == i) := by
        rw [List.countP_map]; rfl
    _ ≤ 1 := hcount

/-! ## C4: retained facilities have in-bounds coordinates -/

/-- Auxiliary invariant for C4. -/
def BoundsInv (st : LoadState) : Prop :=
  ∀ f ∈ st.facilities,
    -90 ≤ f.latitude ∧ f.latitude ≤ 90 ∧ -180 ≤ f.longitude ∧ f.longitude ≤ 180

theorem boundsInv_step (acc : LoadState) (u : RawUnit) (h : BoundsInv acc) :
    BoundsInv (processUnit acc u) := by
  rcases processUnit_spec acc u with heq | ⟨cd, lon, lat, h1, h2, h3, h4, _, lk, _, heq⟩
  · rw [heq]; exact h
  · rw [heq]
    intro f hf
    rcases List.mem_append.mp hf with hf | hf
    · exact h f hf
    · simp only [List.mem_singleton] at hf
      subst hf
      exact ⟨h1, h2, h3, h4⟩

/-- C4: a raw record with out-of-range coordinates is rejected during load,
so every retained facility satisfies `-90 ≤ latitude ≤ 90` and
`-180 ≤ longitude ≤ 180`; no facility built from an out-of-range record is
ever present. -/
theorem loadAll_coordinate_bounds (units : List RawUnit) :
    ∀ f ∈ (buildAll units).1,
      -90 ≤ f.latitude ∧ f.latitude ≤ 90 ∧ -180 ≤ f.longitude ∧ f.longitude ≤ 180 :=
  foldl_processUnit_inv BoundsInv boundsInv_step units _ (by intro f hf; simp at hf)

/-- Witness for C4: a fresh load of one valid Kenya record and one record
with latitude 95 retains exactly the valid facility, whose coordinates are
in bounds. -/
theorem loadAll_coordinate_bounds_witness :
    ((buildAll [⟨"1", some ⟨"Kenya", some "KE", some "KEN"⟩, some [36, -1], none,
        none, none, none, none, none⟩,
      ⟨"2", some ⟨"Kenya", some "KE", some "KEN"⟩, some [36, 95], none,
        none, none, none, none, none⟩]).1.length = 1) ∧
    (-90 ≤ (mkFacility ⟨"1", some ⟨"Kenya", some "KE", some "KEN"⟩, some [36, -1], none,
        none, none, none, none, none⟩ ⟨"Kenya", some "KE", some "KEN"⟩ 36 (-1)).latitude ∧
      (mkFacility ⟨"1", some ⟨"Kenya", some "KE", some "KEN"⟩, some [36, -1], none,
        none, none, none, none, none⟩ ⟨"Kenya", some "KE", some "KEN"⟩ 36 (-1)).latitude ≤ 90 ∧
      -180 ≤ (mkFacility ⟨"1", some ⟨"Kenya", some "KE", some "KEN"⟩, some [36, -1], none,
        none, none, none, none, none⟩ ⟨"Kenya", some "KE", some "KEN"⟩ 36 (-1)).longitude ∧
      (mkFacility ⟨"1", some ⟨"Kenya", some "KE", some "KEN"⟩, some [36, -1], none,
        none, none, none, none, none⟩ ⟨"Kenya", some "KE", some "KEN"⟩ 36 (-1)).longitude ≤ 180) :=
  ⟨by decide,
    loadAll_coordinate_bounds
      [⟨"1", some ⟨"Kenya", some "KE", some "KEN"⟩, some [36, -1], none,
        none, none, none, none, none⟩,
       ⟨"2", some ⟨"Kenya", some "KE", some "KEN"⟩, some [36, 95], none,
        none, none, none, none, none⟩]
      (mkFacility ⟨"1", some ⟨"Kenya", some "KE", some "KEN"⟩, some [36, -1], none,
        none, none, none, none, none⟩ ⟨"Kenya", some "KE", some "KEN"⟩ 36 (-1))
      (by decide)⟩

/-! ## C3: country-index consistency -/

/-- The two spellings of the country key agree: the key used by the
`countriesMap` (`iso3 || name`) equals `iso3` falling back to the name when
`iso3` was stored as `iso3 || ""`. -/
theorem jsOr_empty_key (cd : CountryDetails) :
    (if jsOr cd.iso3 "" = "" then cd.name else jsOr cd.iso3 "") = jsOr cd.iso3 cd.name := by
  cases h : cd.iso3 with
  | none => simp [jsOr]
  | some s => by_cases hs : s = "" <;> simp [jsOr, hs]

theorem facilityKey_mkFacility (u : RawUnit) (cd : CountryDetails) (lon lat : ℚ) :
    facilityKey (mkFacility u cd lon lat) = jsOr cd.iso3 cd.name := by
  show (if jsOr cd.iso3 "" = "" then cd.name else jsOr cd.iso3 "") = jsOr cd.iso3 cd.name
  exact jsOr_empty_key cd

theorem countryInfoKey_mkCountryInfo (cd : CountryDetails) :
    countryInfoKey (mkCountryInfo cd) = jsOr cd.iso3 cd.name := by
  show (if jsOr cd.iso3 "" = "" then cd.name else jsOr cd.iso3 "") = jsOr cd.iso3 cd.name
  exact jsOr_empty_key cd

/-- Incrementing a count leaves keys unchanged (`Map` entries keep their
keys when the country already exists). -/
theorem bumpCountry_keys_pos (cs : List (String × IFRCCountryInfo)) (k : String)
    (cd : CountryDetails) (h : cs.any (fun p => p.1 = k) = true) :
    (bumpCountry cs k cd).map Prod.fst = cs.map Prod.fst := by
  unfold bumpCountry
  rw [if_pos h, List.map_map]
  apply List.map_congr_left
  intro p _
  by_cases hp : p.1 = k <;> simp [hp]

theorem bumpCountry_eq_append (cs : List (String × IFRCCountryInfo)) (k : String)
    (cd : CountryDetails) (h : cs.any (fun p => p.1 = k) = false) :
    bumpCountry cs k cd = cs ++ [(k, mkCountryInfo cd)] := by
  unfold bumpCountry
  rw [if_neg (by simp [h])]

/-- Bumping an existing (unique) key increments the total count by one. -/
theorem bumpCountry_sum_pos (cs : List (String × IFRCCountryInfo)) (k : String)
    (cd : CountryDetails) (hnd : (cs.map Prod.fst).Nodup)
    (h : cs.any (fun p => p.1 = k) = true) :
    ((bumpCountry cs k cd).map (fun p => p.2.facility_count)).sum =
      (cs.map (fun p => p.2.facility_count)).sum + 1 := by
  unfold bumpCountry
  rw [if_pos h, List.map_map]
  have hcomp : ∀ p : String × IFRCCountryInfo,
      ((fun p => p.2.facility_count) ∘ fun p =>
        if p.1 = k then (p.1, { p.2 with facility_count := p.2.facility_count + 1 }) else p) p =
      (if p.1 = k then p.2.facility_count + 1 else p.2.facility_count) := by
    intro p; by_cases hp : p.1 = k <;> simp [hp]
  rw [List.map_congr_left (fun p _ => hcomp p)]
  clear hcomp
  induction cs with
  | nil => simp at h
  | cons q t ih =>
    rw [List.map_cons] at hnd
    rcases List.nodup_cons.mp hnd with ⟨hqn, hndt⟩
    by_cases hq : q.1 = k
    · simp only [List.map_cons, if_pos hq, List.sum_cons]
      have htail : ∀ p ∈ t,
          (if p.1 = k then p.2.facility_count + 1 else p.2.facility_count) =
          (fun p : String × IFRCCountryInfo => p.2.facility_count) p := by
        intro p hp
        rw [if_neg]
        intro hpk
        have h1 : p.1 ∈ t.map Prod.fst := List.mem_map_of_mem _ hp
        rw [hpk, ← hq] at h1
        exact hqn h1
      rw [List.map_congr_left htail]
      omega
    · simp only [List.map_cons, if_neg hq, List.sum_cons]
      have ht : t.any (fun p => p.1 = k) = true := by
        rcases List.any_eq_true.mp h with ⟨p, hp, hpk⟩
        rcases List.mem_cons.mp hp with rfl | hp
        · exact absurd (of_decide_eq_true hpk) hq
        · exact List.any_eq_true.mpr ⟨p, hp, hpk⟩
      rw [ih hndt ht]
      omega

/-- Auxiliary invariant for C3, maintained over the fold:
the country keys are distinct, stored entries carry their own key, each
count equals the number of retained facilities with that key, every retained
facility's key is indexed, and the counts total the number of facilities. -/
def CountryInv (st : LoadState) : Prop :=
  (st.countries.map Prod.fst).Nodup ∧
  (∀ p ∈ st.countries, countryInfoKey p.2 = p.1) ∧
  (∀ p ∈ st.countries,
    p.2.facility_count = st.facilities.countP (fun f => facilityKey f == p.1)) ∧
  (∀ f ∈ st.facilities, facilityKey f ∈ st.countries.map Prod.fst) ∧
  ((st.countries.map (fun p => p.2.facility_count)).sum = st.facilities.length)

theorem countryInv_step (acc : LoadState) (u : RawUnit) (h : CountryInv acc) :
    CountryInv (processUnit acc u) := by
  rcases processUnit_spec acc u with heq | ⟨cd, lon, lat, _, _, _, _, _, lk, _, heq⟩
  · rw [heq]; exact h
  obtain ⟨hnodup, hkeys, hcounts, hpres, hsum⟩ := h
  rw [heq]
  have hfk : facilityKey (mkFacility u cd lon lat) = jsOr cd.iso3 cd.name :=
    facilityKey_mkFacility u cd lon lat
  by_cases hmem : acc.countries.any (fun p => p.1 = jsOr cd.iso3 cd.name) = true
  · have hbk := bumpCountry_keys_pos acc.countries _ cd hmem
    refine ⟨?_, ?_, ?_, ?_, ?_⟩
    · show ((bumpCountry acc.countries _ cd).map Prod.fst).Nodup
      rw [hbk]; exact hnodup
    · intro p hp
      unfold bumpCountry at hp
      rw [if_pos hmem] at hp
      rcases List.mem_map.mp hp with ⟨q, hq, rfl⟩
      by_cases hqk : q.1 = jsOr cd.iso3 cd.name
      · rw [if_pos hqk]
        show countryInfoKey { q.2 with facility_count := q.2.facility_count + 1 } = q.1
        have he : countryInfoKey { q.2 with facility_count := q.2.facility_count + 1 } =
            countryInfoKey q.2 := rfl
        rw [he]
        exact hkeys q hq
      · rw [if_neg hqk]
        exact hkeys q hq
    · intro p hp
      unfold bumpCountry at hp
      rw [if_pos hmem] at hp
      rcases List.mem_map.mp hp with ⟨q, hq, rfl⟩
      by_cases hqk : q.1 = jsOr cd.iso3 cd.name
      · rw [if_pos hqk]
        show q.2.facility_count + 1 =
          (acc.facilities ++ [mkFacility u cd lon lat]).countP (fun f => facilityKey f == q.1)
        rw [List.countP_append, hcounts q hq]
        have h1 : List.countP (fun f => facilityKey f == q.1) [mkFacility u cd lon lat] = 1 := by
          simp [List.countP_cons, hfk, hqk]
        omega
      · rw [if_neg hqk]
        show q.2.facility_count =
          (acc.facilities ++ [mkFacility u cd lon lat]).countP (fun f => facilityKey f == q.1)
        rw [List.countP_append, hcounts q hq]
        have h0 : List.countP (fun f => facilityKey f == q.1) [mkFacility u cd lon lat] = 0 := by
          simp [List.countP_cons, hfk]
          exact fun hh => hqk hh.symm
        omega
    · intro f hf
      show facilityKey f ∈ (bumpCountry acc.countries _ cd).map Prod.fst
      rw [hbk]
      rcases List.mem_append.mp hf with hf | hf
      · exact hpres f hf
      · simp only [List.mem_singleton] at hf
        subst hf
        rw [hfk]
        rcases List.any_eq_true.mp hmem with ⟨p, hp, hpk⟩
        have hpe : p.1 = jsOr cd.iso3 cd.name := of_decide_eq_true hpk
        exact hpe ▸ List.mem_map_of_mem Prod.fst hp
    · rw [bumpCountry_sum_pos acc.countries _ cd hnodup hmem, hsum,
        List.length_append]
      rfl
  · have hknotin : jsOr cd.iso3 cd.name ∉ acc.countries.map Prod.fst := by
      intro hcontra
      rcases List.mem_map.mp hcontra with ⟨p, hp, hpk⟩
      exact hmem (List.any_eq_true.mpr ⟨p, hp, decide_eq_true hpk⟩)
    have hbc : bumpCountry acc.countries (jsOr cd.iso3 cd.name) cd =
        acc.countries ++ [(jsOr cd.iso3 cd.name, mkCountryInfo cd)] :=
      bumpCountry_eq_append _ _ _ (by
        cases hc : acc.countries.any (fun p => p.1 = jsOr cd.iso3 cd.name)
        · rfl
        · exact absurd hc hmem)
    refine ⟨?_, ?_, ?_, ?_, ?_⟩
    · rw [hbc, List.map_append]
      refine List.Nodup.append hnodup (by simp) ?_
      intro x hx hx2
      simp only [List.map_cons, List.map_nil, List.mem_singleton] at hx2
      subst hx2
      exact hknotin hx
    · intro p hp
      rw [hbc] at hp
      rcases List.mem_append.mp hp with hp | hp
      · exact hkeys p hp
      · simp only [List.mem_singleton] at hp
        subst hp
        exact countryInfoKey_mkCountryInfo cd
    · intro p hp
      rw [hbc] at hp
      rcases List.mem_append.mp hp with hp | hp
      · show p.2.facility_count =
          (acc.facilities ++ [mkFacility u cd lon lat]).countP (fun f => facilityKey f == p.1)
        rw [List.countP_append, hcounts p hp]
        have hpk : p.1 ≠ jsOr cd.iso3 cd.name := by
          intro hh
          exact hknotin (hh ▸ List.mem_map_of_mem Prod.fst hp)
        have h0 : List.countP (fun f => facilityKey f == p.1) [mkFacility u cd lon lat] = 0 := by
          simp [List.countP_cons, hfk]
          exact fun hh => hpk hh.symm
        omega
      · simp only [List.mem_singleton] at hp
        subst hp
        show (mkCountryInfo cd).facility_count =
          (acc.facilities ++ [mkFacility u cd lon lat]).countP
            (fun f => facilityKey f == jsOr cd.iso3 cd.name)
        have hold : acc.facilities.countP (fun f => facilityKey f == jsOr cd.iso3 cd.name) = 0 := by
          rw [List.countP_eq_zero]
          intro f hf
          simp only [beq_iff_eq]
          intro hh
          exact hknotin (hh ▸ hpres f hf)
        rw [List.countP_append, hold]
        simp [List.countP_cons, hfk, mkCountryInfo]
    · intro f hf
      rw [hbc, List.map_append]
      rcases List.mem_append.mp hf with hf | hf
      · exact List.mem_append_left _ (hpres f hf)
      · simp only [List.mem_singleton] at hf
        subst hf
        rw [hfk]
        simp
    · rw [hbc]
      simp only [List.map_append, List.sum_append, List.length_append, hsum]
      simp [mkCountryInfo]

/-- C3: after a completed load, the country keys of the index are pairwise
distinct, the counts sum to the number of retained facilities, and each
summary counts exactly the retained facilities whose key (`iso3` falling
back to `country_name`) matches it. -/
theorem loadAll_country_index_consistent (units : List RawUnit) :
    ((((buildAll units).2).map countryInfoKey).Nodup) ∧
    ((((buildAll units).2).map IFRCCountryInfo.facility_count).sum =
      ((buildAll units).1).length) ∧
    ∀ ci ∈ (buildAll units).2,
      ci.facility_count =
        ((buildAll units).1).countP (fun f => facilityKey f == countryInfoKey ci) := by
  have hinv : CountryInv (units.foldl processUnit ⟨[], [], [], []⟩) :=
    foldl_processUnit_inv CountryInv countryInv_step units _
      ⟨by simp, by simp, by simp, by simp, by simp⟩
  obtain ⟨hnodup, hkeys, hcounts, hpres, hsum⟩ := hinv
  have hperm : (List.insertionSort (fun a b => charListLe a.name.data b.name.data = true)
      (((units.foldl processUnit ⟨[], [], [], []⟩).countries).map Prod.snd)).Perm
      (((units.foldl processUnit ⟨[], [], [], []⟩).countries).map Prod.snd) :=
    List.perm_insertionSort _ _
  refine ⟨?_, ?_, ?_⟩
  · refine ((hperm.map countryInfoKey).nodup_iff).mpr ?_
    rw [List.map_map]
    have he : (((units.foldl processUnit ⟨[], [], [], []⟩).countries).map
        (countryInfoKey ∘ Prod.snd)) =
        ((units.foldl processUnit ⟨[], [], [], []⟩).countries).map Prod.fst :=
      List.map_congr_left (fun p hp => hkeys p hp)
    rw [he]
    exact hnodup
  · have he := (hperm.map IFRCCountryInfo.facility_count).sum_eq
    rw [show (((buildAll units).2).map IFRCCountryInfo.facility_count).sum =
      ((List.insertionSort (fun a b => charListLe a.name.data b.name.data = true)
        (((units.foldl processUnit ⟨[], [], [], []⟩).countries).map Prod.snd)).map
          IFRCCountryInfo.facility_count).sum from rfl, he, List.map_map]
    exact hsum
  · intro ci hci
    have hci2 : ci ∈ ((units.foldl processUnit ⟨[], [], [], []⟩).countries).map Prod.snd :=
      hperm.mem_iff.mp hci
    rcases List.mem_map.mp hci2 with ⟨p, hp, rfl⟩
    rw [show countryInfoKey p.2 = p.1 from hkeys p hp]
    exact hcounts p hp

/-- Witness for C3: loading one valid Kenya record yields a single summary
whose count (1) matches the number of retained Kenya-keyed facilities. -/
theorem loadAll_country_index_consistent_witness :
    (⟨"Kenya", "KE", "KEN", 1⟩ : IFRCCountryInfo).facility_count =
      ((buildAll [⟨"1", some ⟨"Kenya", some "KE", some "KEN"⟩, some [36, -1], none,
        none, none, none, none, none⟩]).1).countP
        (fun f => facilityKey f == countryInfoKey ⟨"Kenya", "KE", "KEN", 1⟩) :=
  (loadAll_country_index_consistent
      [⟨"1", some ⟨"Kenya", some "KE", some "KEN"⟩, some [36, -1], none,
        none, none, none, none, none⟩]).2.2
    ⟨"Kenya", "KE", "KEN", 1⟩ (by decide)

/-! ## C2: dedup-key uniqueness and the stored-tuple discrepancy -/

theorem projK_processValidUnitK (acc : LoadStateK) (u : RawUnit) (cd : CountryDetails)
    (lon lat : ℚ) :
    projK (processValidUnitK acc u cd lon lat) = processValidUnit (projK acc) u cd lon lat := by
  unfold processValidUnitK processValidUnit projK
  split_ifs <;> simp

theorem projK_processUnitK (acc : LoadStateK) (u : RawUnit) :
    projK (processUnitK acc u) = processUnit (projK acc) u := by
  unfold processUnitK processUnit
  cases hcd : u.country_details with
  | none => rfl
  | some cd =>
    cases hco : u.coordinates with
    | none => rfl
    | some l =>
      rcases l with _ | ⟨a, _ | ⟨b, _ | ⟨c, t⟩⟩⟩
      · rfl
      · rfl
      · exact projK_processValidUnitK acc u cd a b
      · rfl

theorem foldl_projK (l : List RawUnit) :
    ∀ sk : LoadStateK, l.foldl processUnit (projK sk) = projK (l.foldl processUnitK sk) := by
  induction l with
  | nil => intro sk; rfl
  | cons u t ih =>
    intro sk
    rw [List.foldl_cons, List.foldl_cons, ← projK_processUnitK sk u]
    exact ih _

/-- The faithful `buildAll` computes exactly the facilities of the
instrumented fold. -/
theorem buildAll_eq_buildAllK (units : List RawUnit) :
    (buildAll units).1 = (buildAllK units).map Prod.fst := by
  show (units.foldl processUnit ⟨[], [], [], []⟩).facilities = _
  rw [show (⟨[], [], [], []⟩ : LoadState) = projK ⟨[], [], [], []⟩ from rfl,
    foldl_projK units ⟨[], [], [], []⟩]
  rfl

/-- Case analysis for the instrumented guarded body. -/
theorem processValidUnitK_spec (acc : LoadStateK) (u : RawUnit) (cd : CountryDetails)
    (lon lat : ℚ) :
    processValidUnitK acc u cd lon lat = acc ∨
    ∃ nm,
      locationKey lat lon cd.name nm ∉ acc.seenLocations ∧
      processValidUnitK acc u cd lon lat =
        { facilitiesK := acc.facilitiesK ++
            [(mkFacility u cd lon lat, locationKey lat lon cd.name nm)]
          seenIds := acc.seenIds ++ [u.id]
          seenLocations := acc.seenLocations ++ [locationKey lat lon cd.name nm]
          countries := bumpCountry acc.countries (jsOr cd.iso3 cd.name) cd } := by
  unfold processValidUnitK
  split
  · exact Or.inl rfl
  · split
    · exact Or.inl rfl
    · split
      · exact Or.inl rfl
      · rename_i hlk
        exact Or.inr ⟨jsOr u.local_branch_name (jsOr u.english_branch_name "Unknown"),
          hlk, rfl⟩

/-- Case analysis for one instrumented iteration. -/
theorem processUnitK_spec (acc : LoadStateK) (u : RawUnit) :
    processUnitK acc u = acc ∨
    ∃ cd lon lat nm,
      locationKey lat lon cd.name nm ∉ acc.seenLocations ∧
      processUnitK acc u =
        { facilitiesK := acc.facilitiesK ++
            [(mkFacility u cd lon lat, locationKey lat lon cd.name nm)]
          seenIds := acc.seenIds ++ [u.id]
          seenLocations := acc.seenLocations ++ [locationKey lat lon cd.name nm]
          countries := bumpCountry acc.countries (jsOr cd.iso3 cd.name) cd } := by
  unfold processUnitK
  cases hcd : u.country_details with
  | none => exact Or.inl rfl
  | some cd =>
    cases hco : u.coordinates with
    | none => exact Or.inl rfl
    | some l =>
      rcases l with _ | ⟨a, _ | ⟨b, _ | ⟨c, t⟩⟩⟩
      · exact Or.inl rfl
      · exact Or.inl rfl
      · rcases processValidUnitK_spec acc u cd a b with h | ⟨nm, h1, h2⟩
        · exact Or.inl h
        · exact Or.inr ⟨cd, a, b, nm, h1, h2⟩
      · exact Or.inl rfl

/-- Auxiliary invariant for C2: the dedup keys of the retained facilities
are distinct, recorded in `seenLocations`, and each key is the location-key
string of its facility's rounded coordinates and country with some name. -/
def KeyInv (sk : LoadStateK) : Prop :=
  ((sk.facilitiesK.map Prod.snd).Nodup) ∧
  (∀ p ∈ sk.facilitiesK, p.2 ∈ sk.seenLocations) ∧
  (∀ p ∈ sk.facilitiesK, ∃ nm,
    p.2 = locationKey p.1.latitude p.1.longitude p.1.country_name nm)

theorem keyInv_step (acc : LoadStateK) (u : RawUnit) (h : KeyInv acc) :
    KeyInv (processUnitK acc u) := by
  rcases processUnitK_spec acc u with heq | ⟨cd, lon, lat, nm, hlk, heq⟩
  · rw [heq]; exact h
  · rw [heq]
    obtain ⟨hnodup, hseen, hshape⟩ := h
    refine ⟨?_, ?_, ?_⟩
    · rw [List.map_append]
      refine List.Nodup.append hnodup (by simp) ?_
      intro x hx hx2
      simp only [List.map_cons, List.map_nil, List.mem_singleton] at hx2
      subst hx2
      rcases List.mem_map.mp hx with ⟨p, hp, hpk⟩
      exact hlk (hpk ▸ hseen p hp)
    · intro p hp
      rcases List.mem_append.mp hp with hp | hp
      · exact List.mem_append_left _ (hseen p hp)
      · simp only [List.mem_singleton] at hp
        subst hp
        simp
    · intro p hp
      rcases List.mem_append.mp hp with hp | hp
      · exact hshape p hp
      · simp only [List.mem_singleton] at hp
        subst hp
        exact ⟨nm, rfl⟩

theorem foldl_processUnitK_inv (P : LoadStateK → Prop)
    (hstep : ∀ acc u, P acc → P (processUnitK acc u)) :
    ∀ (l : List RawUnit) (acc : LoadStateK), P acc → P (l.foldl processUnitK acc) := by
  intro l
  induction l with
  | nil => intro acc h; exact h
  | cons u t ih => intro acc h; exact ih _ (hstep acc u h)

/-- C2 (amended): the retained facilities of `loadAllData` are exactly the
first components of the instrumented load, whose per-record dedup keys —
`(lat.toFixed(6), lon.toFixed(6), country_name, local_branch_name-preferred
name)` joined as a string — are pairwise distinct; each key is built from
the facility's own coordinates and country name together with the
local-preferred name of its raw record. Hence two raw records with identical
dedup keys yield at most one retained facility between them, while retained
facilities may still share the `(rounded-lat, rounded-lon, country_name,
stored name)` tuple, the stored `name` preferring `english_branch_name`. -/
theorem loadAll_dedup_key_unique (units : List RawUnit) :
    ((buildAll units).1 = (buildAllK units).map Prod.fst) ∧
    (((buildAllK units).map Prod.snd).Nodup) ∧
    ∀ p ∈ buildAllK units, ∃ nm,
      p.2 = locationKey p.1.latitude p.1.longitude p.1.country_name nm := by
  have hinv : KeyInv (units.foldl processUnitK ⟨[], [], [], []⟩) :=
    foldl_processUnitK_inv KeyInv keyInv_step units _ ⟨by simp, by simp, by simp⟩
  exact ⟨buildAll_eq_buildAllK units, hinv.1, hinv.2.2⟩

/-- Witness for C2 (amended): the single facility retained from one valid
Kenya record carries the dedup key built from its coordinates, country, and
the local-preferred name `"A"`. -/
theorem loadAll_dedup_key_unique_witness :
    ∃ nm,
      ((mkFacility ⟨"1", some ⟨"Kenya", some "KE", some "KEN"⟩, some [36, -1], none,
          some "A", some "E", none, none, none⟩
        ⟨"Kenya", some "KE", some "KEN"⟩ 36 (-1)),
       ("-1.000000,36.000000,Kenya,A" : String)).2 =
      locationKey
        ((mkFacility ⟨"1", some ⟨"Kenya", some "KE", some "KEN"⟩, some [36, -1], none,
            some "A", some "E", none, none, none⟩
          ⟨"Kenya", some "KE", some "KEN"⟩ 36 (-1)),
         ("-1.000000,36.000000,Kenya,A" : String)).1.latitude
        ((mkFacility ⟨"1", some ⟨"Kenya", some "KE", some "KEN"⟩, some [36, -1], none,
            some "A", some "E", none, none, none⟩
          ⟨"Kenya", some "KE", some "KEN"⟩ 36 (-1)),
         ("-1.000000,36.000000,Kenya,A" : String)).1.longitude
        ((mkFacility ⟨"1", some ⟨"Kenya", some "KE", some "KEN"⟩, some [36, -1], none,
            some "A", some "E", none, none, none⟩
          ⟨"Kenya", some "KE", some "KEN"⟩ 36 (-1)),
         ("-1.000000,36.000000,Kenya,A" : String)).1.country_name nm :=
  (loadAll_dedup_key_unique
      [⟨"1", some ⟨"Kenya", some "KE", some "KEN"⟩, some [36, -1], none,
        some "A", some "E", none, none, none⟩]).2.2
    _ (by decide)

/-- Counterexample for C2 as stated: two raw Kenya records at the same
location with different ids and different local names (`"A"`, `"B"`) but the
same english name (`"E"`) are both retained — the dedup keys differ — yet
their stored `(rounded-lat, rounded-lon, country_name, name)` tuples are
identical, because the stored `name` prefers `english_branch_name`. -/
theorem loadAll_stored_tuple_not_unique :
    ¬ ∀ units : List RawUnit,
        List.Pairwise (fun f g => storedTuple f ≠ storedTuple g) (buildAll units).1 := by
  intro h
  have hc := h
    [⟨"1", some ⟨"Kenya", some "KE", some "KEN"⟩, some [36, -1], none,
      some "A", some "E", none, none, none⟩,
     ⟨"2", some ⟨"Kenya", some "KE", some "KEN"⟩, some [36, -1], none,
      some "B", some "E", none, none, none⟩]
  revert hc
  decide

/-! ## C5: cache TTL -/

/-- Counterexample for C5 as stated: the read path is
`return this.cache.get(key) || null`, so a stored falsy value reads as
`null` even before its expiry instant. Over a number-valued cache (where `0`
is the falsy value), `set("k", 0)` at instant 0 followed by `get("k")` at
instant 0 — well before expiry — returns absent, not the stored value,
refuting "for every key k and value v, get(k) returns v at any read time
before the entry's expiry instant". -/
theorem cache_ttl_counterexample :
    ¬ ∀ (st : CacheState ℕ) (k : String) (v : ℕ) (tset tread : ℕ),
        tread < tset + CACHE_DURATION →
        (getCache (fun n => n == 0) (setCache st k v tset) k tread).1 = some v := by
  intro h
  have hx := h ⟨fun _ => none, fun _ => none⟩ "k" 0 0 0 (by decide)
  revert hx
  decide

/-- C5 (amended): after `setCache(k, v)` at instant `tset`, a `getCache(k)`
read at any instant up to the expiry instant `tset + CACHE_DURATION` returns
`v` provided `v` is truthy; a stored falsy value reads as absent even before
expiry (the `|| null` coercion on the read path); and a read at any later
instant reports a miss and evicts the entry from both the value map and the
expiry map, whatever the value. -/
theorem cache_ttl {α : Type} (falsy : α → Bool) (st : CacheState α) (k : String)
    (v : α) (tset tread : ℕ) :
    (tread ≤ tset + CACHE_DURATION → falsy v = false →
      (getCache falsy (setCache st k v tset) k tread).1 = some v) ∧
    (tread ≤ tset + CACHE_DURATION → falsy v = true →
      (getCache falsy (setCache st k v tset) k tread).1 = none) ∧
    (tset + CACHE_DURATION < tread →
      (getCache falsy (setCache st k v tset) k tread).1 = none ∧
      (getCache falsy (setCache st k v tset) k tread).2.cache k = none ∧
      (getCache falsy (setCache st k v tset) k tread).2.cacheExpiry k = none) := by
  have hnz : tset + CACHE_DURATION ≠ 0 := by
    unfold CACHE_DURATION
    omega
  refine ⟨?_, ?_, ?_⟩
  · intro hle hfv
    have hcond : ¬(tset + CACHE_DURATION ≠ 0 ∧ tset + CACHE_DURATION < tread) := by
      rintro ⟨-, hlt⟩
      omega
    simp only [getCache, setCache, Function.update_same]
    rw [if_neg hcond]
    simp [jsValOr, hfv]
  · intro hle hfv
    have hcond : ¬(tset + CACHE_DURATION ≠ 0 ∧ tset + CACHE_DURATION < tread) := by
      rintro ⟨-, hlt⟩
      omega
    simp only [getCache, setCache, Function.update_same]
    rw [if_neg hcond]
    simp [jsValOr, hfv]
  · intro hgt
    have hcond : tset + CACHE_DURATION ≠ 0 ∧ tset + CACHE_DURATION < tread := ⟨hnz, hgt⟩
    simp only [getCache, setCache, Function.update_same]
    rw [if_pos hcond]
    exact ⟨rfl, by simp, by simp⟩

/-- Witness for C5 (amended): with an empty number-valued cache,
`set("k", 7)` (a truthy value) at instant 0 is readable at instant
`CACHE_DURATION` and is absent (and evicted) at instant
`CACHE_DURATION + 1`. -/
theorem cache_ttl_witness :
    ((getCache (fun n : ℕ => n == 0)
        (setCache (⟨fun _ => none, fun _ => none⟩ : CacheState ℕ) "k" 7 0)
        "k" 600000).1 = some 7) ∧
    ((getCache (fun n : ℕ => n == 0)
        (setCache (⟨fun _ => none, fun _ => none⟩ : CacheState ℕ) "k" 7 0)
        "k" 600001).1 = none) :=
  ⟨(cache_ttl (fun n : ℕ => n == 0) (⟨fun _ => none, fun _ => none⟩ : CacheState ℕ)
      "k" 7 0 600000).1 (by decide) (by decide),
   ((cache_ttl (fun n : ℕ => n == 0) (⟨fun _ => none, fun _ => none⟩ : CacheState ℕ)
      "k" 7 0 600001).2.2 (by decide)).1⟩

/-! ## C8: atomicity of `loadAllData` on upstream failure -/

/-- With the always-truthy falsiness used for cached payload objects, the
`|| null` read coercion is the identity. -/
theorem jsValOr_const_false {α : Type} (o : Option α) :
    jsValOr (fun _ => false) o = o := by
  cases o <;> simp [jsValOr]

/-- A cache miss (under the always-truthy payload falsiness of
`loadAllData`) leaves no value under the key: either the entry was evicted
just now, or there was none. -/
theorem getCache_miss_no_value {α : Type} (cs : CacheState α) (k : String) (now : ℕ)
    (h : (getCache (fun _ => false) cs k now).1 = none) :
    (getCache (fun _ => false) cs k now).2.cache k = none := by
  cases he : cs.cacheExpiry k with
  | none =>
    simp [getCache, jsValOr_const_false, he] at h ⊢
    exact h
  | some e =>
    by_cases hc : e ≠ 0 ∧ e < now
    · simp [getCache, he, hc, Function.update_same]
    · simp [getCache, jsValOr_const_false, he, hc] at h ⊢
      exact h

/-- C8: whenever `loadAllData` surfaces an error, the error is the
descriptive re-thrown fetch failure, the in-memory facility and country
arrays are unchanged, `dataLoaded` stays `false`, and no value is cached
under the combined key `"all_ifrc_data"` (atomicity on error: the only state
change is the lazy eviction of an already-expired cache entry). -/
theorem loadAllData_atomic_on_error (st : ServiceState) (now : ℕ)
    (fetched : Except String (List RawUnit)) (e : String)
    (herr : (loadAllData st now fetched).1 = some e) :
    (∃ msg, fetched = Except.error msg ∧ e = "Failed to load data: " ++ msg) ∧
    (loadAllData st now fetched).2.allFacilities = st.allFacilities ∧
    (loadAllData st now fetched).2.allCountries = st.allCountries ∧
    (loadAllData st now fetched).2.dataLoaded = false ∧
    st.dataLoaded = false ∧
    (loadAllData st now fetched).2.cacheState.cache "all_ifrc_data" = none := by
  unfold loadAllData at herr ⊢
  by_cases hdl : st.dataLoaded
  · rw [if_pos hdl] at herr
    exact absurd herr (by simp)
  · rw [if_neg hdl] at herr ⊢
    have hdl2 : st.dataLoaded = false := by
      cases hb : st.dataLoaded
      · rfl
      · exact absurd hb hdl
    split at herr
    · exact absurd herr (by simp)
    · rename_i hr
      cases fetched with
      | ok units => exact absurd herr (by simp)
      | error msg =>
        simp only [Option.some.injEq] at herr
        have hcn := getCache_miss_no_value st.cacheState "all_ifrc_data" now hr
        exact ⟨⟨msg, rfl, herr.symm⟩, rfl, rfl, hdl2, hdl2, hcn⟩

/-- Witness for C8: a fresh service state with an empty cache and a failing
fetch surfaces the descriptive error and persists nothing. -/
theorem loadAllData_atomic_on_error_witness :
    (loadAllData ⟨⟨fun _ => none, fun _ => none⟩, [], [], false⟩ 0
        (Except.error "network down")).2.dataLoaded = false ∧
    (loadAllData ⟨⟨fun _ => none, fun _ => none⟩, [], [], false⟩ 0
        (Except.error "network down")).2.cacheState.cache "all_ifrc_data" = none :=
  ⟨(loadAllData_atomic_on_error ⟨⟨fun _ => none, fun _ => none⟩, [], [], false⟩ 0
      (Except.error "network down") "Failed to load data: network down"
      (by decide)).2.2.2.1,
   (loadAllData_atomic_on_error ⟨⟨fun _ => none, fun _ => none⟩, [], [], false⟩ 0
      (Except.error "network down") "Failed to load data: network down"
      (by decide)).2.2.2.2.2⟩

/-! ## C6: coverage preference in the results summary -/

/-- Counterexample for C6 as stated: when the backend reports a present
60-minute coverage of `0` and a 30-minute coverage of `50`, the summary is
`50`, not the present 60-minute value — the `||` fallback treats a present
zero as falsy. -/
theorem coverage_prefers_60min_counterexample :
    ¬ ∀ (d : BackendData) (c : IFRCCountryInfo) (hc n : ℕ) (x : ℚ),
        d.coverage_60min = some x → (buildAnalysisResults d c hc n).coverage = x := by
  intro h
  have hx := h ⟨"asset", some 50, some 0⟩ ⟨"Kenya", "KE", "KEN", 1⟩ 0 0 0 rfl
  revert hx
  decide

/-- C6 (amended): the summary coverage prefers a truthy (present and
nonzero) 60-minute value, falls back to a truthy 30-minute value, and is
zero otherwise; a present-but-zero value is treated as absent by the `||`
chain. -/
theorem coverage_fallback_truthy (d : BackendData) (c : IFRCCountryInfo)
    (hc n : ℕ) :
    (∀ x : ℚ, d.coverage_60min = some x → x ≠ 0 →
      (buildAnalysisResults d c hc n).coverage = x) ∧
    ((d.coverage_60min = none ∨ d.coverage_60min = some 0) →
      (∀ y : ℚ, d.coverage_30min = some y → y ≠ 0 →
        (buildAnalysisResults d c hc n).coverage = y) ∧
      ((d.coverage_30min = none ∨ d.coverage_30min = some 0) →
        (buildAnalysisResults d c hc n).coverage = 0)) := by
  constructor
  · intro x hx hxne
    show jsNumOr d.coverage_60min (jsNumOr d.coverage_30min 0) = x
    rw [hx]
    simp [jsNumOr, hxne]
  · intro h60
    constructor
    · intro y hy hyne
      show jsNumOr d.coverage_60min (jsNumOr d.coverage_30min 0) = y
      rcases h60 with h60 | h60 <;>
        rw [h60, hy] <;> simp [jsNumOr, hyne]
    · intro h30
      show jsNumOr d.coverage_60min (jsNumOr d.coverage_30min 0) = 0
      rcases h60 with h60 | h60 <;> rcases h30 with h30 | h30 <;>
        rw [h60, h30] <;> simp [jsNumOr]

/-- Witness for C6 (amended): a truthy 60-minute value of 70 wins over a
present 30-minute value of 40. -/
theorem coverage_fallback_truthy_witness :
    (buildAnalysisResults ⟨"asset", some 40, some 70⟩ ⟨"Kenya", "KE", "KEN", 1⟩
      0 0).coverage = 70 :=
  (coverage_fallback_truthy ⟨"asset", some 40, some 70⟩ ⟨"Kenya", "KE", "KEN", 1⟩
      0 0).1 70 rfl (by norm_num)

/-! ## C7: fail-fast when the backend probe reported not-ready -/

/-- C7: invoking the run handler with a selected country while the
connectivity probe has reported not-ready throws the
"Backend Earth Engine is not available..." error before any stage executes:
the run terminates in the failed state (`isLoading` cleared, no results, the
failure banner set) and `analyzeFromAsset` is never called. -/
theorem run_fails_fast_when_backend_not_ready (env : RunEnv) (c : IFRCCountryInfo)
    (hsel : env.selectedCountry = some c)
    (hconn : env.backendConnected = some false) :
    (handleRunAnalysis env).analyzeCalled = false ∧
    (handleRunAnalysis env).results = none ∧
    (handleRunAnalysis env).thrownMessage =
      some "Backend Earth Engine is not available. Please ensure the backend server is running and connected to Google Earth Engine." ∧
    (handleRunAnalysis env).mapError = some "Analysis failed. Please try again." ∧
    (handleRunAnalysis env).isLoading = false := by
  unfold handleRunAnalysis
  rw [hsel]
  simp [jsTruthyOptBool, hconn]

/-- Witness for C7: a concrete environment with a selected country and a
not-ready backend probe. -/
theorem run_fails_fast_when_backend_not_ready_witness :
    (handleRunAnalysis ⟨some ⟨"Kenya", "KE", "KEN", 1⟩, some false, 0,
        fun _ => ⟨true, ⟨"asset", none, none⟩⟩, 0⟩).analyzeCalled = false ∧
    (handleRunAnalysis ⟨some ⟨"Kenya", "KE", "KEN", 1⟩, some false, 0,
        fun _ => ⟨true, ⟨"asset", none, none⟩⟩, 0⟩).thrownMessage =
      some "Backend Earth Engine is not available. Please ensure the backend server is running and connected to Google Earth Engine." :=
  ⟨(run_fails_fast_when_backend_not_ready ⟨some ⟨"Kenya", "KE", "KEN", 1⟩, some false, 0,
      fun _ => ⟨true, ⟨"asset", none, none⟩⟩, 0⟩ ⟨"Kenya", "KE", "KEN", 1⟩ rfl rfl).1,
   (run_fails_fast_when_backend_not_ready ⟨some ⟨"Kenya", "KE", "KEN", 1⟩, some false, 0,
      fun _ => ⟨true, ⟨"asset", none, none⟩⟩, 0⟩ ⟨"Kenya", "KE", "KEN", 1⟩ rfl rfl).2.2.1⟩

/-! ## C9: boundary alias resolution -/

/-- C9: over a boundary dataset containing the Natural Earth feature
"United States of America" (alongside unrelated features), and with the
fixed variation table listing "usa" and "united states" in the same alias
group, `getCountryBoundary("USA")` and `getCountryBoundary("United States")`
resolve to the same boundary — the same feature and polygon (`"USA"` via the
symmetric variation-table tier, `"United States"` via substring containment;
the first two tiers match no feature). -/
theorem boundary_alias_usa {G : Type} (gCan gUSA gMex : G) :
    (getCountryBoundary (⟨none, []⟩ : BoundaryState G) "USA"
        (Except.ok [⟨"Canada", some "CA", some "CAN", gCan⟩,
                    ⟨"United States of America", some "US", some "USA", gUSA⟩,
                    ⟨"Mexico", some "MX", some "MEX", gMex⟩])).1 =
      some (mkBoundary ⟨"United States of America", some "US", some "USA", gUSA⟩) ∧
    (getCountryBoundary (⟨none, []⟩ : BoundaryState G) "United States"
        (Except.ok [⟨"Canada", some "CA", some "CAN", gCan⟩,
                    ⟨"United States of America", some "US", some "USA", gUSA⟩,
                    ⟨"Mexico", some "MX", some "MEX", gMex⟩])).1 =
      some (mkBoundary ⟨"United States of America", some "US", some "USA", gUSA⟩) :=
  ⟨rfl, rfl⟩

/-! ## C10: boundary resolution never throws; only successes are cached -/

theorem loadBoundaryData_ok_cache {G : Type} (st : BoundaryState G)
    (fetched : Except String (List (GeoFeature G))) (d : List (GeoFeature G))
    (st1 : BoundaryState G) (h : loadBoundaryData st fetched = .ok (d, st1)) :
    st1.cache = st.cache := by
  unfold loadBoundaryData at h
  cases hb : st.boundaryData with
  | some d0 =>
    rw [hb] at h
    simp only [Except.ok.injEq, Prod.mk.injEq] at h
    rw [← h.2]
  | none =>
    rw [hb] at h
    cases fetched with
    | ok d2 =>
      simp only [Except.ok.injEq, Prod.mk.injEq] at h
      rw [← h.2]
    | error msg => exact absurd h (by simp)

theorem loadBoundaryData_none_error {G : Type} (st : BoundaryState G) (msg : String)
    (h0 : st.boundaryData = none) :
    loadBoundaryData st (Except.error msg) =
      (Except.error msg : Except String (List (GeoFeature G) × BoundaryState G)) := by
  unfold loadBoundaryData
  rw [h0]

theorem alookup_cons {β : Type} (p : String × β) (t : List (String × β)) (k : String) :
    alookup (p :: t) k = if p.1 = k then some p.2 else alookup t k := by
  by_cases hp : p.1 = k
  · rw [if_pos hp]
    unfold alookup
    rw [List.find?_cons_of_pos _ (by simp [hp])]
    rfl
  · rw [if_neg hp]
    unfold alookup
    rw [List.find?_cons_of_neg _ (by simp [hp])]

theorem alookup_map_set {β : Type} (l : List (String × β)) (k : String) (v : β)
    (h : l.any (fun p => p.1 = k) = true) :
    alookup (l.map (fun p => if p.1 = k then (k, v) else p)) k = some v := by
  induction l with
  | nil => simp at h
  | cons p t ih =>
    rw [List.map_cons, alookup_cons]
    by_cases hp : p.1 = k
    · simp [hp]
    · rw [if_neg (by simp [hp])]
      apply ih
      rcases List.any_eq_true.mp h with ⟨q, hq, hqk⟩
      rcases List.mem_cons.mp hq with rfl | hq
      · exact absurd (of_decide_eq_true hqk) hp
      · exact List.any_eq_true.mpr ⟨q, hq, hqk⟩

theorem alookup_map_set_ne {β : Type} (l : List (String × β)) (k : String) (v : β)
    (k2 : String) (hne : k2 ≠ k) :
    alookup (l.map (fun p => if p.1 = k then (k, v) else p)) k2 = alookup l k2 := by
  induction l with
  | nil => rfl
  | cons p t ih =>
    rw [List.map_cons, alookup_cons, alookup_cons]
    by_cases hp : p.1 = k
    · rw [if_pos hp]
      have h1 : ¬((k, v).1 = k2) := fun hc => hne hc.symm
      have h2 : ¬(p.1 = k2) := by
        rw [hp]
        exact fun hc => hne hc.symm
      rw [if_neg h1, if_neg h2, ih]
    · rw [if_neg hp]
      by_cases hp2 : p.1 = k2
      · rw [if_pos hp2, if_pos hp2]
      · rw [if_neg hp2, if_neg hp2, ih]

theorem alookup_append_same {β : Type} (l : List (String × β)) (k : String) (v : β)
    (h : l.any (fun p => p.1 = k) = false) :
    alookup (l ++ [(k, v)]) k = some v := by
  induction l with
  | nil =>
    rw [List.nil_append, alookup_cons, if_pos rfl]
  | cons p t ih =>
    rw [List.any_cons] at h
    rcases Bool.or_eq_false_iff.mp h with ⟨h1, h2⟩
    have hp : ¬(p.1 = k) := by
      intro hc
      rw [hc] at h1
      simp at h1
    rw [List.cons_append, alookup_cons, if_neg hp]
    exact ih h2

theorem alookup_append_ne {β : Type} (l : List (String × β)) (k : String) (v : β)
    (k2 : String) (hne : k2 ≠ k) :
    alookup (l ++ [(k, v)]) k2 = alookup l k2 := by
  induction l with
  | nil =>
    rw [List.nil_append, alookup_cons, if_neg (fun hc => hne hc.symm)]
  | cons p t ih =>
    rw [List.cons_append, alookup_cons, alookup_cons]
    by_cases hp2 : p.1 = k2
    · rw [if_pos hp2, if_pos hp2]
    · rw [if_neg hp2, if_neg hp2, ih]

theorem alookup_aset_same {β : Type} (l : List (String × β)) (k : String) (v : β) :
    alookup (aset l k v) k = some v := by
  unfold aset
  split
  · rename_i h
    exact alookup_map_set l k v h
  · rename_i h
    have hf : l.any (fun p => p.1 = k) = false := by
      cases hc : l.any (fun p => p.1 = k)
      · rfl
      · exact absurd hc h
    exact alookup_append_same l k v hf

theorem alookup_aset_ne {β : Type} (l : List (String × β)) (k : String) (v : β)
    (k2 : String) (hne : k2 ≠ k) :
    alookup (aset l k v) k2 = alookup l k2 := by
  unfold aset
  split
  · exact alookup_map_set_ne l k v k2 hne
  · exact alookup_append_ne l k v k2 hne

/-- Branch equation: cache hit. -/
theorem getCountryBoundary_eq_cachehit {G : Type} (st : BoundaryState G) (nm : String)
    (fetched : Except String (List (GeoFeature G))) (b : CountryBoundary G)
    (hcl : alookup st.cache (strTrim (strLower nm)) = some b) :
    getCountryBoundary st nm fetched = (some b, st) := by
  unfold getCountryBoundary
  simp only [hcl]

/-- Branch equation: cache miss and failed dataset load. -/
theorem getCountryBoundary_eq_loaderr {G : Type} (st : BoundaryState G) (nm : String)
    (fetched : Except String (List (GeoFeature G))) (msg : String)
    (hcl : alookup st.cache (strTrim (strLower nm)) = none)
    (hld : loadBoundaryData st fetched = .error msg) :
    getCountryBoundary st nm fetched = (none, st) := by
  unfold getCountryBoundary
  simp only [hcl, hld]

/-- Branch equation: cache miss, loaded dataset, feature found. -/
theorem getCountryBoundary_eq_found {G : Type} (st : BoundaryState G) (nm : String)
    (fetched : Except String (List (GeoFeature G))) (data : List (GeoFeature G))
    (st1 : BoundaryState G) (feature : GeoFeature G)
    (hcl : alookup st.cache (strTrim (strLower nm)) = none)
    (hld : loadBoundaryData st fetched = .ok (data, st1))
    (hf : findBoundaryFeature data nm = some feature) :
    getCountryBoundary st nm fetched =
      (some (mkBoundary feature),
        { st1 with cache :=
            (aset st1.cache (strTrim (strLower nm)) (mkBoundary feature)) }) := by
  unfold getCountryBoundary
  simp only [hcl, hld, hf]

/-- Branch equation: cache miss, loaded dataset, no feature matches. -/
theorem getCountryBoundary_eq_notfound {G : Type} (st : BoundaryState G) (nm : String)
    (fetched : Except String (List (GeoFeature G))) (data : List (GeoFeature G))
    (st1 : BoundaryState G)
    (hcl : alookup st.cache (strTrim (strLower nm)) = none)
    (hld : loadBoundaryData st fetched = .ok (data, st1))
    (hf : findBoundaryFeature data nm = none) :
    getCountryBoundary st nm fetched = (none, st1) := by
  unfold getCountryBoundary
  simp only [hcl, hld, hf]

/-- C10: `getCountryBoundary` never propagates an error — every failure
path, a failed dataset fetch included, yields the normal absent result — and
the resolved-name cache gains entries only from successful resolutions: a
cache entry after the call was either there before or is exactly the
boundary just returned, stored under the normalized query key; on a miss or
error the cache is unchanged (and a failed fetch with nothing loaded leaves
the whole state untouched). -/
theorem getCountryBoundary_no_throw (G : Type) (st : BoundaryState G) (nm : String)
    (fetched : Except String (List (GeoFeature G))) :
    ((getCountryBoundary st nm fetched).1 = none →
      (getCountryBoundary st nm fetched).2.cache = st.cache) ∧
    (∀ k b, alookup (getCountryBoundary st nm fetched).2.cache k = some b →
      alookup st.cache k = some b ∨
      ((getCountryBoundary st nm fetched).1 = some b ∧ k = strTrim (strLower nm))) ∧
    (st.boundaryData = none →
      alookup st.cache (strTrim (strLower nm)) = none →
      ∀ msg, fetched = Except.error msg →
        (getCountryBoundary st nm fetched).1 = none ∧
        (getCountryBoundary st nm fetched).2 = st) := by
  cases hcl : alookup st.cache (strTrim (strLower nm)) with
  | some b0 =>
    rw [getCountryBoundary_eq_cachehit st nm fetched b0 hcl]
    exact ⟨fun hc => absurd hc (by simp),
           fun k b hb => Or.inl hb,
           fun _ hnone => absurd hnone (by simp [hcl])⟩
  | none =>
    cases hld : loadBoundaryData st fetched with
    | error msg0 =>
      rw [getCountryBoundary_eq_loaderr st nm fetched msg0 hcl hld]
      exact ⟨fun _ => rfl, fun k b hb => Or.inl hb, fun _ _ _ _ => ⟨rfl, rfl⟩⟩
    | ok pair =>
      rcases pair with ⟨data, st1⟩
      have hc1 : st1.cache = st.cache := loadBoundaryData_ok_cache st fetched data st1 hld
      cases hf : findBoundaryFeature data nm with
      | some feature =>
        rw [getCountryBoundary_eq_found st nm fetched data st1 feature hcl hld hf]
        refine ⟨fun hc => absurd hc (by simp), ?_, ?_⟩
        · intro k b hb
          have hb2 : alookup (aset st1.cache (strTrim (strLower nm)) (mkBoundary feature))
              k = some b := hb
          by_cases hk : k = strTrim (strLower nm)
          · subst hk
            rw [alookup_aset_same] at hb2
            exact Or.inr ⟨hb2, rfl⟩
          · rw [alookup_aset_ne st1.cache (strTrim (strLower nm)) (mkBoundary feature) k hk,
              hc1] at hb2
            exact Or.inl hb2
        · intro h0 _ msg hmsg
          rw [hmsg, loadBoundaryData_none_error st msg h0] at hld
          exact absurd hld (by simp)
      | none =>
        rw [getCountryBoundary_eq_notfound st nm fetched data st1 hcl hld hf]
        refine ⟨fun _ => hc1, ?_, ?_⟩
        · intro k b hb
          have hb2 : alookup st1.cache k = some b := hb
          rw [hc1] at hb2
          exact Or.inl hb2
        · intro h0 _ msg hmsg
          rw [hmsg, loadBoundaryData_none_error st msg h0] at hld
          exact absurd hld (by simp)

/-- Witness for C10: an empty boundary state with a failing fetch resolves
to `null` with the state untouched. -/
theorem getCountryBoundary_no_throw_witness :
    (getCountryBoundary (⟨none, []⟩ : BoundaryState ℕ) "Atlantis"
        (Except.error "network down")).1 = none ∧
    (getCountryBoundary (⟨none, []⟩ : BoundaryState ℕ) "Atlantis"
        (Except.error "network down")).2 = (⟨none, []⟩ : BoundaryState ℕ) :=
  (getCountryBoundary_no_throw ℕ ⟨none, []⟩ "Atlantis"
      (Except.error "network down")).2.2 rfl (by decide) "network down" rfl
